import Mathlib

/-!
Shallow embedding of the trade-simulation modules of this repository
(`小川試作品環境/trade_simulation.py` and `売買シミュレーション.py`).

Dates are modelled as natural-number day ordinals (canonical, zone-naive,
day-granularity values, as produced by the date normalizer). Prices are
modelled as rationals. Fallible Python code is modelled with `Except`; the
error constructors mirror the exceptions the source raises.
-/

/-- Errors raised by the simulation modules. `noTradingDay` models the
`IndexError` of `_get_nearest_date_index`; `tickerNotFound` models the
`KeyError` of `_find_column_for_ticker`, carrying up to 20 sample column
labels; `invalidRequest` models the `ValueError` of `simulate_trade` when
neither sell date nor hold length is given; `keyErrorBuy` / `keyErrorSell`
model the wrapped `KeyError`s of the two price lookups; `zeroDivision`
models Python's `ZeroDivisionError` raised by float division by `0.0`;
`formatError` models the `ValueError` of `load_prices` when neither axis
parses as dates. -/
inductive SimErr where
  | noTradingDay
  | tickerNotFound (sample : List String)
  | invalidRequest
  | keyErrorBuy
  | keyErrorSell
  | zeroDivision
  | formatError
deriving DecidableEq, Repr

/-- Direction argument of `_get_nearest_date_index` (the source passes the
strings "next" and "prev"; any string other than "next" takes the `else`
branch, and the call sites only pass these two). -/
inductive Direction where
  | next
  | prev
deriving DecidableEq, Repr

/-- Decidable equality for `Except`, so that concrete runs of the embedded
functions can be checked with `decide`. -/
instance exceptDecEq {ε α : Type} [DecidableEq ε] [DecidableEq α] :
    DecidableEq (Except ε α) := fun a b =>
  match a, b with
  | .ok x, .ok y =>
    if h : x = y then .isTrue (by rw [h]) else
      .isFalse (fun hh => h (Except.ok.inj hh))
  | .error x, .error y =>
    if h : x = y then .isTrue (by rw [h]) else
      .isFalse (fun hh => h (Except.error.inj hh))
  | .ok _, .error _ => .isFalse (fun hh => Except.noConfusion hh)
  | .error _, .ok _ => .isFalse (fun hh => Except.noConfusion hh)

/-- Model of `dates.searchsorted(target)` (pandas / numpy, default side
`left`) on a list of day ordinals: the insertion point, i.e. the length of
the longest prefix of elements strictly below `target`. On a sorted index
this is exactly what the pandas call returns. -/
def searchsorted (dates : List Nat) (target : Nat) : Nat :=
  match dates with
  | [] => 0
  | d :: rest => if d < target then searchsorted rest target + 1 else 0

/-- Embedding of `_get_nearest_date_index(dates, target, direction)`
(identical in both modules, `trade_simulation.py` lines 63-72): take the
`searchsorted` insertion point; for "next" fail when it is past the end,
otherwise return it; for "prev" fail when it is `0`, otherwise return the
point minus one. -/
def get_nearest_date_index (dates : List Nat) (target : Nat)
    (direction : Direction) : Except SimErr Nat :=
  let i := searchsorted dates target
  match direction with
  | .next => if i ≥ dates.length then .error .noTradingDay else .ok i
  | .prev => if i = 0 then .error .noTradingDay else .ok (i - 1)

theorem searchsorted_le_length (ds : List Nat) (t : Nat) :
    searchsorted ds t ≤ ds.length := by
  induction ds with
  | nil => simp [searchsorted]
  | cons d rest ih =>
    by_cases h : d < t
    · simpa [searchsorted, h] using ih
    · simp [searchsorted, h]

theorem getD_lt_of_lt_searchsorted (ds : List Nat) (t : Nat) :
    ∀ j, j < searchsorted ds t → ds.getD j 0 < t := by
  induction ds with
  | nil => intro j hj; simp [searchsorted] at hj
  | cons d rest ih =>
    intro j hj
    by_cases hd : d < t
    · cases j with
      | zero => simpa using hd
      | succ k =>
        simp only [searchsorted, if_pos hd] at hj
        exact ih k (by omega)
    · simp [searchsorted, hd] at hj

theorem le_getD_searchsorted (ds : List Nat) (t : Nat)
    (h : searchsorted ds t < ds.length) :
    t ≤ ds.getD (searchsorted ds t) 0 := by
  induction ds with
  | nil => simp at h
  | cons d rest ih =>
    by_cases hd : d < t
    · simp only [searchsorted, if_pos hd, List.length_cons] at h
      simpa [searchsorted, hd] using ih (by omega)
    · simp [searchsorted, hd]
      omega

theorem searchsorted_eq_length_iff (ds : List Nat) (t : Nat) :
    searchsorted ds t = ds.length ↔ ∀ d ∈ ds, d < t := by
  induction ds with
  | nil => simp [searchsorted]
  | cons d rest ih =>
    by_cases hd : d < t
    · simp [searchsorted, hd, ih]
    · simp [searchsorted, hd]

theorem le_searchsorted_of_forall (ds : List Nat) (t : Nat) :
    ∀ i, i ≤ ds.length → (∀ j, j < i → ds.getD j 0 < t) →
      i ≤ searchsorted ds t := by
  induction ds with
  | nil => intro i hi _; simpa [searchsorted] using hi
  | cons d rest ih =>
    intro i hi h
    cases i with
    | zero => exact Nat.zero_le _
    | succ k =>
      have hd : d < t := by simpa using h 0 (Nat.succ_pos k)
      simp only [searchsorted, if_pos hd]
      have hk := ih k (by simpa using hi)
        (fun j hj => by simpa using h (j + 1) (by omega))
      omega

/-- List membership helper: the `getD` of an in-bounds position is a member. -/
theorem List.getD_mem_of_lt (ds : List Nat) (i : Nat) (h : i < ds.length) :
    ds.getD i 0 ∈ ds := by
  rw [List.getD_eq_getElem ds 0 h]
  exact List.getElem_mem h

/-- C5: For every ascending sequence of trading days and every canonical
target date, forward-locate (direction "next") returns `Except.ok i` exactly
when `i` is the position of the first trading day ≥ target (every earlier
day is strictly below the target), and fails with the no-trading-day error
exactly when the target exceeds every available day. -/
theorem C5_forward_locate (dates : List Nat) (t : Nat)
    (hs : List.Sorted (· < ·) dates) (i : Nat) :
    (get_nearest_date_index dates t .next = .ok i ↔
      i < dates.length ∧ t ≤ dates.getD i 0 ∧ ∀ j, j < i → dates.getD j 0 < t) ∧
    (get_nearest_date_index dates t .next = .error .noTradingDay ↔
      ∀ d ∈ dates, d < t) := by
  have hle := searchsorted_le_length dates t
  constructor
  · by_cases h : searchsorted dates t ≥ dates.length
    · have hall : ∀ d ∈ dates, d < t :=
        (searchsorted_eq_length_iff dates t).1 (by omega)
      simp only [get_nearest_date_index, if_pos h]
      constructor
      · intro hh; exact absurd hh (fun hh => Except.noConfusion hh)
      · rintro ⟨hi, hti, _⟩
        have : dates.getD i 0 < t := by
          have : dates.getD i 0 ∈ dates := List.getD_mem_of_lt dates i hi
          exact hall _ this
        omega
    · simp only [get_nearest_date_index, if_neg h]
      constructor
      · intro hh
        have hsi : searchsorted dates t = i := Except.ok.inj hh
        refine ⟨by omega, ?_, ?_⟩
        · rw [← hsi]; exact le_getD_searchsorted dates t (by omega)
        · intro j hj; exact getD_lt_of_lt_searchsorted dates t j (by omega)
      · rintro ⟨hi, hti, hbelow⟩
        have h1 : i ≤ searchsorted dates t :=
          le_searchsorted_of_forall dates t i (by omega) hbelow
        have h2 : searchsorted dates t ≤ i := by
          by_contra hc
          have := getD_lt_of_lt_searchsorted dates t i (by omega)
          omega
        have : searchsorted dates t = i := by omega
        simp [this]
  · by_cases h : searchsorted dates t ≥ dates.length
    · simp only [get_nearest_date_index, if_pos h]
      constructor
      · intro _; exact (searchsorted_eq_length_iff dates t).1 (by omega)
      · intro _; trivial
    · simp only [get_nearest_date_index, if_neg h]
      constructor
      · intro hh; exact absurd hh (fun hh => Except.noConfusion hh)
      · intro hall
        have := (searchsorted_eq_length_iff dates t).2 hall
        omega

/-- C5 witness (Scenario 1 of the spec): on trading days
2020-01-02, 2020-01-03, 2020-01-10 (day ordinals 2, 3, 10), a buy request
for 2020-01-05 (ordinal 5) resolves to index 2, i.e. 2020-01-10. -/
theorem C5_forward_locate_witness :
    get_nearest_date_index [2, 3, 10] 5 .next = .ok 2 :=
  (C5_forward_locate [2, 3, 10] 5 (by decide) 2).1.mpr (by decide)

/-- C1: evaluation of backward-locate (direction "prev") at the spec's own
trading-day sequence. With trading days 2020-01-02, 2020-01-03, 2020-01-10
(ordinals 2, 3, 10) and target 2020-01-03 (itself a trading day, ordinal 3),
the code returns index 0 — the day strictly before the target — not the
target's own index 1; and with target 2020-01-02 (the first trading day)
it raises the no-trading-day error even though a trading day ≤ target
exists. The `searchsorted` insertion point (side "left") minus one yields
the last day strictly below the target, not the last day ≤ target. -/
theorem C1_backward_locate_eval :
    get_nearest_date_index [2, 3, 10] 3 .prev = .ok 0 ∧
    [2, 3, 10].getD 0 0 = 2 ∧
    get_nearest_date_index [2, 3, 10] 2 .prev = .error .noTradingDay := by
  decide


/-- Model of Python's `str.replace(old, new)` for one-character patterns, as
used at lines 131 and 135 of `trade_simulation.py` (`ticker.replace("_", ".")`
and `ticker.replace(".", "_")`): every occurrence of the character is swapped. -/
def swapChars (a b : Char) (s : String) : String :=
  String.mk (s.toList.map (fun c => if c = a then b else c))

/-- Model of Python's `str.startswith(pattern)` on character lists (the
first list is the string, the second the pattern). -/
def listStartsWith : List Char → List Char → Bool
  | _, [] => true
  | [], _ :: _ => false
  | c :: s, p :: ps => c == p && listStartsWith s ps

/-- Model of Python's substring test `pattern in s` on character lists (the
first list is the string, the second the pattern). -/
def containsSub : List Char → List Char → Bool
  | [], pat => pat.isEmpty
  | c :: rest, pat => listStartsWith (c :: rest) pat || containsSub rest pat

/-- Model of `re.match(r"^(\d{3,6})", ticker)` at line 142: the greedy
leading run of digits truncated to six, provided it is at least three long. -/
def extractCode (ticker : String) : Option String :=
  let ds := (ticker.toList.takeWhile Char.isDigit).take 6
  if 3 ≤ ds.length then some (String.mk ds) else none

/-- Embedding of `_find_column_for_ticker(df, ticker)` (`trade_simulation.py`
lines 118-157) over the table's column labels: exact match, then the `_`→`.`
swap, then the `.`→`_` swap, then the first column starting with the
extracted 3-6 digit code, then the first column containing that code as a
substring; otherwise the ticker-not-found error carrying the first 20 column
labels (`cols[:20]`). When no code can be extracted, the substring loop of
the source tests `code and code in str(c)`, which is falsy, so it too falls
through to the error. -/
def find_column_for_ticker (cols : List String) (ticker : String) :
    Except SimErr String :=
  if ticker ∈ cols then .ok ticker
  else if swapChars '_' '.' ticker ∈ cols then .ok (swapChars '_' '.' ticker)
  else if swapChars '.' '_' ticker ∈ cols then .ok (swapChars '.' '_' ticker)
  else
    match extractCode ticker with
    | some code =>
      match cols.find? (fun c => listStartsWith c.toList code.toList) with
      | some c => .ok c
      | none =>
        match cols.find? (fun c => containsSub c.toList code.toList) with
        | some c => .ok c
        | none => .error (.tickerNotFound (cols.take 20))
    | none => .error (.tickerNotFound (cols.take 20))

/-- C2: ticker resolution tries the match rules in fixed order with the
first match winning — exact string equality, then equality after the
separator substitutions (`_`→`.`, then `.`→`_`), then the first column
whose label starts with the leading 3-6 digit code extracted from the
ticker, then the first column containing that code as a substring — and
fails with the ticker-not-found error carrying the first 20 column labels
when no rule matches (also when no numeric code can be extracted). -/
theorem C2_resolver_order (cols : List String) (ticker : String) :
    (ticker ∈ cols → find_column_for_ticker cols ticker = .ok ticker) ∧
    (ticker ∉ cols → swapChars '_' '.' ticker ∈ cols →
      find_column_for_ticker cols ticker = .ok (swapChars '_' '.' ticker)) ∧
    (ticker ∉ cols → swapChars '_' '.' ticker ∉ cols →
      swapChars '.' '_' ticker ∈ cols →
      find_column_for_ticker cols ticker = .ok (swapChars '.' '_' ticker)) ∧
    (∀ code c, ticker ∉ cols → swapChars '_' '.' ticker ∉ cols →
      swapChars '.' '_' ticker ∉ cols → extractCode ticker = some code →
      cols.find? (fun x => listStartsWith x.toList code.toList) = some c →
      find_column_for_ticker cols ticker = .ok c) ∧
    (∀ code c, ticker ∉ cols → swapChars '_' '.' ticker ∉ cols →
      swapChars '.' '_' ticker ∉ cols → extractCode ticker = some code →
      cols.find? (fun x => listStartsWith x.toList code.toList) = none →
      cols.find? (fun x => containsSub x.toList code.toList) = some c →
      find_column_for_ticker cols ticker = .ok c) ∧
    (∀ code, ticker ∉ cols → swapChars '_' '.' ticker ∉ cols →
      swapChars '.' '_' ticker ∉ cols → extractCode ticker = some code →
      cols.find? (fun x => listStartsWith x.toList code.toList) = none →
      cols.find? (fun x => containsSub x.toList code.toList) = none →
      find_column_for_ticker cols ticker =
        .error (.tickerNotFound (cols.take 20))) ∧
    (ticker ∉ cols → swapChars '_' '.' ticker ∉ cols →
      swapChars '.' '_' ticker ∉ cols → extractCode ticker = none →
      find_column_for_ticker cols ticker =
        .error (.tickerNotFound (cols.take 20))) := by
  refine ⟨?_, ?_, ?_, ?_, ?_, ?_, ?_⟩
  · intro h1
    simp [find_column_for_ticker, h1]
  · intro h1 h2
    simp [find_column_for_ticker, h1, h2]
  · intro h1 h2 h3
    simp [find_column_for_ticker, h1, h2, h3]
  · intro code c h1 h2 h3 h4 h5
    simp only [find_column_for_ticker, if_neg h1, if_neg h2, if_neg h3, h4, h5]
  · intro code c h1 h2 h3 h4 h5 h6
    simp only [find_column_for_ticker, if_neg h1, if_neg h2, if_neg h3, h4, h5,
      h6]
  · intro code h1 h2 h3 h4 h5 h6
    simp only [find_column_for_ticker, if_neg h1, if_neg h2, if_neg h3, h4, h5,
      h6]
  · intro h1 h2 h3 h4
    simp only [find_column_for_ticker, if_neg h1, if_neg h2, if_neg h3, h4]

/-- C2 witness (Scenario 4 of the spec): with price column "3382.T", the
ticker "3382_T" resolves via the separator-swap rule to "3382.T". -/
theorem C2_resolver_order_witness :
    find_column_for_ticker ["3382.T"] "3382_T" = .ok "3382.T" := by
  have e : swapChars '_' '.' "3382_T" = "3382.T" := by decide
  have h := (C2_resolver_order ["3382.T"] "3382_T").2.1 (by decide)
    (by rw [e]; decide)
  rw [e] at h
  exact h

/-- A dividend record: a canonical (normalized, zone-naive) dividend date
and a ticker label (meaningful only when the table has a ticker column). -/
structure DivRow where
  date : Nat
  ticker : String
deriving DecidableEq, Repr

/-- A dividend table. Both source forms (an explicit "date" column, or dates
as the index, which the source resets into a "date" column) normalize to a
list of dated rows, modelled here with canonical day ordinals;
`hasTickerCol` records whether a "ticker" column is present. -/
structure DivTable where
  hasTickerCol : Bool
  rows : List DivRow
deriving DecidableEq, Repr

/-- Embedding of `dividends_in_period(dividends_df, ticker, start, end)`
(`trade_simulation.py` lines 75-115): `None` yields false; otherwise the
rows are filtered to the requested ticker when a ticker column is present,
and the result is whether any remaining date lies in the inclusive range.
The source's time-zone stripping and `normalize()` calls are identities on
canonical dates, so they do not appear. -/
def dividends_in_period (dividends_df : Option DivTable) (ticker : String)
    (start stop : Nat) : Bool :=
  match dividends_df with
  | none => false
  | some df =>
    let rows :=
      if df.hasTickerCol then df.rows.filter (fun r => r.ticker == ticker)
      else df.rows
    rows.any (fun r => decide (start ≤ r.date) && decide (r.date ≤ stop))

/-- C7: the dividend window checker returns true iff at least one record —
restricted to the requested ticker when a ticker column is present — has a
date in the inclusive range `[start, stop]`, and absent dividend data
(`None`) yields false (the embedding is a total function, so no error is
ever raised). -/
theorem C7_dividend_window (div : Option DivTable) (ticker : String)
    (s e : Nat) (hse : s ≤ e) :
    dividends_in_period none ticker s e = false ∧
    (∀ df, div = some df →
      (dividends_in_period div ticker s e = true ↔
        ∃ r ∈ df.rows, (df.hasTickerCol = true → r.ticker = ticker) ∧
          s ≤ r.date ∧ r.date ≤ e)) := by
  refine ⟨rfl, ?_⟩
  rintro df rfl
  cases h : df.hasTickerCol <;>
    simp [dividends_in_period, h, List.any_eq_true, List.mem_filter]

/-- C7 witness: a single dividend on day 5 in a table without a ticker
column is detected in the window from day 1 to day 9. -/
theorem C7_dividend_window_witness :
    dividends_in_period (some ⟨false, [⟨5, "X"⟩]⟩) "Y" 1 9 = true :=
  ((C7_dividend_window (some ⟨false, [⟨5, "X"⟩]⟩) "Y" 1 9 (by decide)).2
    ⟨false, [⟨5, "X"⟩]⟩ rfl).mpr ⟨⟨5, "X"⟩, by simp, by decide, by decide, by decide⟩

/-- A loaded price table: the ascending trading-day index (canonical day
ordinals), the column labels, and the `.at[date, column]` cell lookup,
where `none` models a lookup that raises (missing label pair or empty
cell). Prices are modelled as rationals. -/
structure PriceTable where
  dates : List Nat
  cols : List String
  cell : Nat → String → Option ℚ

/-- A trade result, mirroring the dictionary returned by `simulate_trade`. -/
structure TradeResult where
  buy_date : Nat
  sell_date : Nat
  buy_price : ℚ
  sell_price : ℚ
  profit_pct : ℚ
  dividends_occurred : Bool
deriving DecidableEq, Repr

/-- The sell-index resolution step of `simulate_trade` (lines 221-227 of
`trade_simulation.py`, lines 116-123 of `売買シミュレーション.py`): an explicit
sell date wins and is located backward; otherwise a hold length gives
`min(buy_idx + int(hold_days), len(dates) - 1)`; otherwise the
invalid-request `ValueError`. Hold lengths are the data model's
non-negative integers. -/
def resolveSellIdx (dates : List Nat) (buyIdx : Nat) (sell_date : Option Nat)
    (hold_days : Option Nat) : Except SimErr Nat :=
  match sell_date with
  | some s => get_nearest_date_index dates s .prev
  | none =>
    match hold_days with
    | some h => .ok (min (buyIdx + h) (dates.length - 1))
    | none => .error .invalidRequest

/-- Embedding of `simulate_trade` of `小川試作品環境/trade_simulation.py`
(lines 205-257): locate the buy date forward, resolve the sell index,
resolve the ticker to a column, look up both prices (a failed lookup is the
wrapped `KeyError`), and compute the percentage profit — Python float
division raises `ZeroDivisionError` when the buy price is `0.0`, modelled
by the explicit zero test. The source initializes the dividend flag to
`False` and overwrites it via `dividends_in_period` when dividend data is
supplied; since `dividends_in_period` itself maps `None` to false, the two
steps are fused into one call. -/
def simulate_trade (ticker : String) (buy_date : Nat) (sell_date : Option Nat)
    (hold_days : Option Nat) (prices_df : PriceTable)
    (dividends_df : Option DivTable) : Except SimErr TradeResult :=
  match get_nearest_date_index prices_df.dates buy_date .next with
  | .error e => .error e
  | .ok buyIdx =>
    let actual_buy_date := prices_df.dates.getD buyIdx 0
    match resolveSellIdx prices_df.dates buyIdx sell_date hold_days with
    | .error e => .error e
    | .ok sellIdx =>
      let actual_sell_date := prices_df.dates.getD sellIdx 0
      match find_column_for_ticker prices_df.cols ticker with
      | .error e => .error e
      | .ok col =>
        match prices_df.cell actual_buy_date col with
        | none => .error .keyErrorBuy
        | some buy_price =>
          match prices_df.cell actual_sell_date col with
          | none => .error .keyErrorSell
          | some sell_price =>
            if buy_price = 0 then .error .zeroDivision
            else
              .ok ⟨actual_buy_date, actual_sell_date, buy_price, sell_price,
                (sell_price - buy_price) / buy_price * 100,
                dividends_in_period dividends_df ticker actual_buy_date
                  actual_sell_date⟩

/-- Embedding of `simulate_trade` of `売買シミュレーション.py` (lines 81-153):
identical to the copy except that both price lookups use the raw ticker
directly as the column label (`prices_df.at[date, ticker]`) — there is no
ticker-resolution step. -/
def simulate_trade_original (ticker : String) (buy_date : Nat)
    (sell_date : Option Nat) (hold_days : Option Nat)
    (prices_df : PriceTable) (dividends_df : Option DivTable) :
    Except SimErr TradeResult :=
  match get_nearest_date_index prices_df.dates buy_date .next with
  | .error e => .error e
  | .ok buyIdx =>
    let actual_buy_date := prices_df.dates.getD buyIdx 0
    match resolveSellIdx prices_df.dates buyIdx sell_date hold_days with
    | .error e => .error e
    | .ok sellIdx =>
      let actual_sell_date := prices_df.dates.getD sellIdx 0
      match prices_df.cell actual_buy_date ticker with
      | none => .error .keyErrorBuy
      | some buy_price =>
        match prices_df.cell actual_sell_date ticker with
        | none => .error .keyErrorSell
        | some sell_price =>
          if buy_price = 0 then .error .zeroDivision
          else
            .ok ⟨actual_buy_date, actual_sell_date, buy_price, sell_price,
              (sell_price - buy_price) / buy_price * 100,
              dividends_in_period dividends_df ticker actual_buy_date
                actual_sell_date⟩

/-- Every error returned by the ticker resolver is the ticker-not-found
error carrying the first 20 column labels. -/
theorem find_column_error_shape (cols : List String) (ticker : String)
    (e : SimErr) (h : find_column_for_ticker cols ticker = .error e) :
    e = .tickerNotFound (cols.take 20) := by
  unfold find_column_for_ticker at h
  repeat' split at h
  all_goals simp_all

/-- A three-day price table with a single column "A" and constant price 1,
used as concrete witness input. -/
def clampTable : PriceTable :=
  ⟨[1, 2, 3], ["A"], fun _ c => if c = "A" then some 1 else none⟩

/-- A two-day price table whose only column "Z" has price 0 on day 1 and 5
on day 2, exhibiting the zero buy price. -/
def zeroTable : PriceTable :=
  ⟨[1, 2], ["Z"],
    fun d c => if c = "Z" then (if d = 1 then some 0 else some 5) else none⟩

/-- A two-day price table whose only column is "3382.T" (prices 100 and
110), separating the two modules on a fuzzy ticker. -/
def fuzzyTable : PriceTable :=
  ⟨[1, 2], ["3382.T"],
    fun d c =>
      if c = "3382.T" then (if d = 1 then some 100 else some 110) else none⟩

/-- C4 counterexample: with both a sell date and a hold length supplied,
`simulate_trade` does not fail with the invalid-request error — the
`if sell_date is not None` branch silently wins and the run succeeds. -/
theorem C4_counterexample :
    simulate_trade "A" 1 (some 3) (some 7) clampTable none =
      .ok ⟨1, 2, 1, 1, (1 - 1) / 1 * 100, false⟩ ∧
    simulate_trade "A" 1 (some 3) (some 7) clampTable none ≠
      .error .invalidRequest := by
  have h1 : simulate_trade "A" 1 (some 3) (some 7) clampTable none =
      .ok ⟨1, 2, 1, 1, (1 - 1) / 1 * 100, false⟩ := rfl
  refine ⟨h1, ?_⟩
  rw [h1]
  intro hh
  exact Except.noConfusion hh

/-- C4 (amended): `simulate_trade` fails with the invalid-request error when
neither sell date nor hold length is supplied (once the buy date has been
located), and when both are supplied the sell date silently takes
precedence — the run is identical to supplying the sell date alone. -/
theorem C4_invalid_request (ticker : String) (bd : Nat) (p : PriceTable)
    (d : Option DivTable) (buyIdx : Nat)
    (hb : get_nearest_date_index p.dates bd .next = .ok buyIdx) :
    simulate_trade ticker bd none none p d = .error .invalidRequest ∧
    ∀ s h, simulate_trade ticker bd (some s) (some h) p d =
      simulate_trade ticker bd (some s) none p d := by
  constructor
  · simp [simulate_trade, hb, resolveSellIdx]
  · intro s h
    rfl

/-- C4 witness: on the concrete three-day table, supplying neither input
yields the invalid-request error. -/
theorem C4_invalid_request_witness :
    simulate_trade "A" 1 none none clampTable none =
      .error .invalidRequest :=
  (C4_invalid_request "A" 1 clampTable none 0 (by decide)).1

/-- C3 counterexample: with a resolved buy price of 0, the simulation fails
with the raw `ZeroDivisionError` (the uncaught Python float division), not
with either price-lookup `KeyError` of the error taxonomy. -/
theorem C3_counterexample :
    simulate_trade "Z" 1 (some 3) none zeroTable none =
      .error .zeroDivision ∧
    SimErr.zeroDivision ≠ SimErr.keyErrorBuy ∧
    SimErr.zeroDivision ≠ SimErr.keyErrorSell := by decide

/-- C3 (amended): whenever both date resolutions and the ticker resolution
succeed and both price lookups succeed with a buy price of 0, the
simulation fails with the raw `ZeroDivisionError` escaping to the caller
(not a price-lookup error). -/
theorem C3_zero_price (ticker : String) (bd : Nat) (sd hd : Option Nat)
    (p : PriceTable) (d : Option DivTable) (buyIdx sellIdx : Nat)
    (col : String) (sp : ℚ)
    (hb : get_nearest_date_index p.dates bd .next = .ok buyIdx)
    (hsell : resolveSellIdx p.dates buyIdx sd hd = .ok sellIdx)
    (hcol : find_column_for_ticker p.cols ticker = .ok col)
    (h0 : p.cell (p.dates.getD buyIdx 0) col = some 0)
    (hs : p.cell (p.dates.getD sellIdx 0) col = some sp) :
    simulate_trade ticker bd sd hd p d = .error .zeroDivision := by
  simp only [simulate_trade, hb, hsell, hcol, h0, hs]
  simp

/-- C3 witness: the amended statement instantiated on the concrete
zero-price table. -/
theorem C3_zero_price_witness :
    simulate_trade "Z" 1 (some 3) none zeroTable none =
      .error .zeroDivision :=
  C3_zero_price "Z" 1 (some 3) none zeroTable none 0 1 "Z" 5
    (by decide) (by decide) (by decide) (by decide) (by decide)

/-- C10 counterexample: on a table whose only column is "3382.T", the
ticker "3382_T" makes the 小川試作品環境 copy succeed (fuzzy resolution) while
`売買シミュレーション.py` fails with the wrapped buy-lookup `KeyError`, so the
two modules are not functionally identical. -/
theorem C10_counterexample :
    simulate_trade "3382_T" 1 (some 3) none fuzzyTable none =
      .ok ⟨1, 2, 100, 110, (110 - 100) / 100 * 100, false⟩ ∧
    simulate_trade_original "3382_T" 1 (some 3) none fuzzyTable none =
      .error .keyErrorBuy ∧
    simulate_trade "3382_T" 1 (some 3) none fuzzyTable none ≠
      simulate_trade_original "3382_T" 1 (some 3) none fuzzyTable none := by
  have h1 : simulate_trade "3382_T" 1 (some 3) none fuzzyTable none =
      .ok ⟨1, 2, 100, 110, (110 - 100) / 100 * 100, false⟩ := rfl
  have h2 : simulate_trade_original "3382_T" 1 (some 3) none fuzzyTable none =
      .error .keyErrorBuy := rfl
  refine ⟨h1, h2, ?_⟩
  rw [h1, h2]
  intro hh
  exact Except.noConfusion hh

/-- C10 (amended): the two modules agree — same results, same failures —
whenever the requested ticker is literally a column label of the price
table, since exact match is the resolver's first rule. -/
theorem C10_exact_ticker_equiv (ticker : String) (bd : Nat)
    (sd hd : Option Nat) (p : PriceTable) (d : Option DivTable)
    (hmem : ticker ∈ p.cols) :
    simulate_trade ticker bd sd hd p d =
      simulate_trade_original ticker bd sd hd p d := by
  have hcol : find_column_for_ticker p.cols ticker = .ok ticker := by
    simp [find_column_for_ticker, hmem]
  simp only [simulate_trade, simulate_trade_original, hcol]

/-- C10 witness: on a table that does contain the literal column "A", the
two modules produce the same run. -/
theorem C10_exact_ticker_equiv_witness :
    simulate_trade "A" 1 (some 3) none clampTable none =
      simulate_trade_original "A" 1 (some 3) none clampTable none :=
  C10_exact_ticker_equiv "A" 1 (some 3) none clampTable none (by decide)

/-- When the buy date is located and the sell side is given as a hold
length, any failure of `simulate_trade` is a ticker or price error, never a
date or request error. -/
theorem simulate_hold_error_shape (ticker : String) (bd h : Nat)
    (p : PriceTable) (d : Option DivTable) (buyIdx : Nat)
    (hb : get_nearest_date_index p.dates bd .next = .ok buyIdx) (e : SimErr)
    (hc : simulate_trade ticker bd none (some h) p d = .error e) :
    e = .tickerNotFound (p.cols.take 20) ∨ e = .keyErrorBuy ∨
      e = .keyErrorSell ∨ e = .zeroDivision := by
  simp only [simulate_trade, hb, resolveSellIdx] at hc
  cases hcol : find_column_for_ticker p.cols ticker with
  | error e2 =>
    simp only [hcol] at hc
    have := find_column_error_shape p.cols ticker e2 hcol
    simp_all
  | ok col =>
    simp only [hcol] at hc
    cases hbuy : p.cell (p.dates.getD buyIdx 0) col with
    | none => simp_all
    | some bp =>
      simp only [hbuy] at hc
      cases hsell : p.cell
          (p.dates.getD (min (buyIdx + h) (p.dates.length - 1)) 0) col with
      | none => simp_all
      | some sp =>
        simp only [hsell] at hc
        by_cases hz : bp = 0 <;> simp_all

/-- C6: given a hold length instead of an explicit sell date, the sell
index is `min(buy_idx + hold_days, len(dates) - 1)` — the sell-resolution
step itself always succeeds (silent clamping), the whole run never fails
with a date or request error, and a successful run's sell date is the
trading day at the clamped index. -/
theorem C6_hold_clamp (ticker : String) (bd h : Nat) (p : PriceTable)
    (d : Option DivTable) (buyIdx : Nat)
    (hb : get_nearest_date_index p.dates bd .next = .ok buyIdx) :
    resolveSellIdx p.dates buyIdx none (some h) =
      .ok (min (buyIdx + h) (p.dates.length - 1)) ∧
    simulate_trade ticker bd none (some h) p d ≠ .error .noTradingDay ∧
    simulate_trade ticker bd none (some h) p d ≠ .error .invalidRequest ∧
    ∀ r, simulate_trade ticker bd none (some h) p d = .ok r →
      r.sell_date = p.dates.getD (min (buyIdx + h) (p.dates.length - 1)) 0 := by
  refine ⟨rfl, ?_, ?_, ?_⟩
  · intro hcon
    rcases simulate_hold_error_shape ticker bd h p d buyIdx hb _ hcon with
      h1 | h1 | h1 | h1 <;> simp at h1
  · intro hcon
    rcases simulate_hold_error_shape ticker bd h p d buyIdx hb _ hcon with
      h1 | h1 | h1 | h1 <;> simp at h1
  · intro r hr
    simp only [simulate_trade, hb, resolveSellIdx] at hr
    repeat' split at hr
    all_goals first
      | exact Except.noConfusion hr
      | rw [← Except.ok.inj hr]

/-- C6 witness (Scenario 3): buy index 0 with hold length 100 on the
three-day table resolves to the last trading day (index 2, day 3). -/
theorem C6_hold_clamp_witness :
    (⟨1, 3, 1, 1, (1 - 1) / 1 * 100, false⟩ : TradeResult).sell_date =
      clampTable.dates.getD (min (0 + 100) (clampTable.dates.length - 1)) 0 :=
  (C6_hold_clamp "A" 1 100 clampTable none 0 (by decide)).2.2.2
    ⟨1, 3, 1, 1, (1 - 1) / 1 * 100, false⟩ rfl

/-- State-threading variant of `dividends_in_period`: the source first
copies the frame (`df = dividends_df.copy()`, line 78) and applies every
mutating operation (date-column assignment, index reset, ticker filter) to
the copy `df`, so the call returns its answer together with the caller's
frame exactly as it was. -/
def dividends_in_period_state (dividends_df : Option DivTable)
    (ticker : String) (start stop : Nat) : Bool × Option DivTable :=
  match dividends_df with
  | none => (false, none)
  | some frame =>
    let df := frame
    let rows :=
      if df.hasTickerCol then df.rows.filter (fun r => r.ticker == ticker)
      else df.rows
    (rows.any (fun r => decide (start ≤ r.date) && decide (r.date ≤ stop)),
      some frame)

/-- State-threading variant of `simulate_trade` of
`小川試作品環境/trade_simulation.py`: alongside the result it returns the price
table and the dividend table as they stand when the call returns. The price
frame is only ever read (`prices_df.index`, `prices_df.at`), and the
dividend frame is handed to `dividends_in_period`, which works on a copy. -/
def simulate_trade_state (ticker : String) (buy_date : Nat)
    (sell_date : Option Nat) (hold_days : Option Nat)
    (prices_df : PriceTable) (dividends_df : Option DivTable) :
    Except SimErr TradeResult × PriceTable × Option DivTable :=
  match get_nearest_date_index prices_df.dates buy_date .next with
  | .error e => (.error e, prices_df, dividends_df)
  | .ok buyIdx =>
    let actual_buy_date := prices_df.dates.getD buyIdx 0
    match resolveSellIdx prices_df.dates buyIdx sell_date hold_days with
    | .error e => (.error e, prices_df, dividends_df)
    | .ok sellIdx =>
      let actual_sell_date := prices_df.dates.getD sellIdx 0
      match find_column_for_ticker prices_df.cols ticker with
      | .error e => (.error e, prices_df, dividends_df)
      | .ok col =>
        match prices_df.cell actual_buy_date col with
        | none => (.error .keyErrorBuy, prices_df, dividends_df)
        | some buy_price =>
          match prices_df.cell actual_sell_date col with
          | none => (.error .keyErrorSell, prices_df, dividends_df)
          | some sell_price =>
            if buy_price = 0 then
              (.error .zeroDivision, prices_df, dividends_df)
            else
              let st := dividends_in_period_state dividends_df ticker
                actual_buy_date actual_sell_date
              (.ok ⟨actual_buy_date, actual_sell_date, buy_price, sell_price,
                (sell_price - buy_price) / buy_price * 100, st.1⟩,
                prices_df, st.2)

/-- The dividend checker leaves its frame unchanged. -/
theorem dividends_state_frame (d : Option DivTable) (ticker : String)
    (s e : Nat) : (dividends_in_period_state d ticker s e).2 = d := by
  cases d <;> rfl

/-- The dividend checker's answer agrees with the plain embedding. -/
theorem dividends_state_fst (d : Option DivTable) (ticker : String)
    (s e : Nat) :
    (dividends_in_period_state d ticker s e).1 =
      dividends_in_period d ticker s e := by
  cases d <;> rfl

/-- C9: `simulate_trade` is deterministic and stateless — two invocations
with equal arguments produce equal outcomes, and the state-threading
embedding returns both supplied frames unchanged (the price frame is only
read; `dividends_in_period` mutates only its local copy); its result
component coincides with the plain `simulate_trade`. -/
theorem C9_deterministic_stateless (ticker : String) (bd : Nat)
    (sd hd : Option Nat) (p p2 : PriceTable) (d d2 : Option DivTable)
    (hp : p2 = p) (hd2 : d2 = d) :
    simulate_trade_state ticker bd sd hd p d =
      simulate_trade_state ticker bd sd hd p2 d2 ∧
    (simulate_trade_state ticker bd sd hd p d).2.1 = p ∧
    (simulate_trade_state ticker bd sd hd p d).2.2 = d ∧
    (simulate_trade_state ticker bd sd hd p d).1 =
      simulate_trade ticker bd sd hd p d := by
  subst hp
  subst hd2
  refine ⟨rfl, ?_, ?_, ?_⟩
  · unfold simulate_trade_state
    dsimp only
    repeat' split
    all_goals simp [dividends_state_frame]
  · unfold simulate_trade_state
    dsimp only
    repeat' split
    all_goals simp [dividends_state_frame]
  · unfold simulate_trade_state simulate_trade
    dsimp only
    repeat' split
    all_goals simp [dividends_state_fst]

/-- C9 witness: the statelessness statement instantiated on the concrete
three-day table. -/
theorem C9_deterministic_stateless_witness :
    (simulate_trade_state "A" 1 (some 3) none clampTable none).2.1 =
      clampTable :=
  (C9_deterministic_stateless "A" 1 (some 3) none clampTable clampTable
    none none rfl rfl).2.1

/-- A raw two-dimensional CSV table as read by `pd.read_csv(p, index_col=0)`
in `load_prices`: row labels (the first column), column headers, and a cell
grid addressed by (row, column) position. -/
structure RawCSV where
  rowLabels : List String
  colLabels : List String
  cellf : Nat → Nat → ℚ

/-- Transposition (`df.T`): the label axes swap and the grid flips. -/
def RawCSV.transp (t : RawCSV) : RawCSV :=
  ⟨t.colLabels, t.rowLabels, fun i j => t.cellf j i⟩

/-- The price table produced by `load_prices`: the parsed date index (a
failed parse is pandas `NaT`, modelled `none`), the ticker columns, and
the positional cell grid. -/
structure LoadedPrices where
  index : List (Option Nat)
  cols : List String
  cellf : Nat → Nat → ℚ

/-- Embedding of the orientation logic of `load_prices`
(`trade_simulation.py` lines 38-58) for an existing file, parameterized by
the external date parser (`pd.to_datetime(..., errors="coerce")`, whose
successes are already canonical): if at least 90% of the row index parses
as dates (`valid / max(1, len) >= 0.9`, i.e. `10 * valid ≥ 9 * max 1 len`),
keep the orientation; else if at least 90% of the column headers parses,
take the transpose with the parsed headers as the date index; otherwise
the format `ValueError`. -/
def load_prices (parseD : String → Option Nat) (t : RawCSV) :
    Except SimErr LoadedPrices :=
  let idxParsed := t.rowLabels.map parseD
  if 10 * idxParsed.countP (fun o => o.isSome) ≥
      9 * max 1 t.rowLabels.length then
    .ok ⟨idxParsed, t.colLabels, t.cellf⟩
  else
    let colsParsed := t.colLabels.map parseD
    if 10 * colsParsed.countP (fun o => o.isSome) ≥
        9 * max 1 t.colLabels.length then
      .ok ⟨colsParsed, t.rowLabels, fun i j => t.cellf j i⟩
    else
      .error .formatError

/-- A concrete stand-in date parser for witnesses: nonempty all-digit
strings parse to their value, everything else fails. -/
def parseDigitsDate (s : String) : Option Nat :=
  if s.toList ≠ [] ∧ s.toList.all Char.isDigit then
    some (s.toList.foldl (fun n c => 10 * n + (c.toNat - 48)) 0)
  else none

/-- A one-by-one table whose single row label "1" and single column label
"2" both parse as dates. -/
def bothDatesCSV : RawCSV := ⟨["1"], ["2"], fun _ _ => 5⟩

/-- C8 counterexample: on a dataset whose ticker labels are themselves
date-like, loading the row-dates form and loading the transposed form give
different price tables — in the transposed form the row index (the
tickers) already passes the 90% threshold, so the loader keeps the wrong
orientation instead of transposing. -/
theorem C8_counterexample :
    load_prices parseDigitsDate bothDatesCSV ≠
      load_prices parseDigitsDate bothDatesCSV.transp := by
  have h1 : load_prices parseDigitsDate bothDatesCSV =
      .ok ⟨[some 1], ["2"], bothDatesCSV.cellf⟩ := rfl
  have h2 : load_prices parseDigitsDate bothDatesCSV.transp =
      .ok ⟨[some 2], ["1"], bothDatesCSV.transp.cellf⟩ := rfl
  intro h
  rw [h1, h2] at h
  have h3 := congrArg
    (fun r => match r with
      | Except.ok l => l.index
      | Except.error _ => ([] : List (Option Nat))) h
  simp at h3

/-- C8 (amended): whenever the date axis passes the 90% threshold and the
ticker axis does not, loading the row-dates table and loading its
transpose (dates as column headers) yield identical price tables. -/
theorem C8_roundtrip (parseD : String → Option Nat) (t : RawCSV)
    (hdate : 10 * (t.rowLabels.map parseD).countP (fun o => o.isSome) ≥
      9 * max 1 t.rowLabels.length)
    (htick : ¬ 10 * (t.colLabels.map parseD).countP (fun o => o.isSome) ≥
      9 * max 1 t.colLabels.length) :
    load_prices parseD t.transp = load_prices parseD t := by
  simp only [load_prices, RawCSV.transp]
  rw [if_neg htick, if_pos hdate, if_pos hdate]

/-- A two-by-one table with date-like row labels and a non-date column
label. -/
def rowDatesCSV : RawCSV := ⟨["1", "2"], ["A"], fun _ _ => 7⟩

/-- C8 witness: the amended round-trip instantiated on a concrete table. -/
theorem C8_roundtrip_witness :
    load_prices parseDigitsDate rowDatesCSV.transp =
      load_prices parseDigitsDate rowDatesCSV :=
  C8_roundtrip parseDigitsDate rowDatesCSV (by decide) (by decide)
